import Mathlib

/-!
Shallow embedding of the core of the crypto-trading-bot repository.

Floating-point (`f64`) quantities are modelled as rationals (`ℚ`); timestamps
(`DateTime<Utc>`) and durations are modelled as integers counting milliseconds.
`VecDeque` is modelled as a `List` with the front at the head.  A Rust panic
(`unwrap` on `None`) is modelled by returning `none` from the embedded
operation, so an embedded function of type `... → Option α` yields `none`
exactly on the inputs where the Rust code panics.
-/

namespace CryptoBot

/-- Model of `Deltas` (src/strategy/moon_strategies/mshot.rs), six percent
values used by the strategies. -/
structure Deltas where
  delta_3h : ℚ
  delta_hourly : ℚ
  delta_15min : ℚ
  delta_market : ℚ
  delta_btc : ℚ
  delta_btc_5m : ℚ
  deriving Repr, DecidableEq

/-- `Deltas::default()`: all components zero. -/
def Deltas.default : Deltas :=
  ⟨0, 0, 0, 0, 0, 0⟩

/-- Model of `TradeTick` (src/backtest/market.rs, as used by the core):
timestamp in milliseconds, symbol, price, volume and the optional best
bid and ask.  The side and trade id are opaque to every operation the
claims mention and are omitted from the embedding. -/
structure TradeTick where
  timestamp : ℤ
  symbol : String
  price : ℚ
  volume : ℚ
  best_bid : Option ℚ
  best_ask : Option ℚ
  deriving Repr, DecidableEq

/-! ## LiquidationControl (src/risk/liquidation.rs) -/

/-- `LiquidationWarning` enum. -/
inductive LiquidationWarning where
  | None
  | Low
  | Medium
  | High
  | Critical
  deriving Repr, DecidableEq

/-- `LiquidationControl` configuration record. -/
structure LiquidationControl where
  enabled : Bool
  max_leverage : ℕ
  maintenance_margin_rate : ℚ
  liquidation_price_threshold : ℚ
  deriving Repr, DecidableEq

/-- `LiquidationControl::default()`. -/
def LiquidationControl.default : LiquidationControl :=
  ⟨true, 125, 1/100, 20⟩

/-- `LiquidationControl::calculate_liquidation_price`.  Long (size > 0):
`entry * (1 - (1 - mm_rate)/leverage)`; short: `entry * (1 + (1 - mm_rate)/leverage)`.
The `balance` argument is unused in the source as well. -/
def LiquidationControl.calculate_liquidation_price (c : LiquidationControl)
    (position_size entry_price _balance leverage : ℚ) : ℚ :=
  let is_long := position_size > 0
  let margin_factor := (1 - c.maintenance_margin_rate) / leverage
  if is_long then
    entry_price * (1 - margin_factor)
  else
    entry_price * (1 + margin_factor)

/-- `LiquidationControl::check_liquidation_risk`. -/
def LiquidationControl.check_liquidation_risk (c : LiquidationControl)
    (position_size entry_price mark_price _balance leverage : ℚ) : LiquidationWarning :=
  if ¬c.enabled ∨ position_size = 0 ∨ entry_price ≤ 0 ∨ mark_price ≤ 0 then
    .None
  else
    let liquidation_price :=
      c.calculate_liquidation_price position_size entry_price _balance leverage
    let is_long := position_size > 0
    let price_distance :=
      if is_long then (mark_price - liquidation_price) / mark_price * 100
      else (liquidation_price - mark_price) / mark_price * 100
    if price_distance < 5 then .Critical
    else if price_distance < 10 then .High
    else if price_distance < 20 then .Medium
    else if price_distance < 30 then .Low
    else .None

/-- `LiquidationControl::should_reduce_position`. -/
def LiquidationControl.should_reduce_position (c : LiquidationControl)
    (warning : LiquidationWarning) (current_size : ℚ) : Option ℚ :=
  if ¬c.enabled then
    none
  else
    match warning with
    | .Critical => some (current_size * 0.5)
    | .High => some (current_size * 0.7)
    | .Medium => some (current_size * 0.85)
    | .Low | .None => none

/-- `LiquidationControl::can_open_position`. -/
def LiquidationControl.can_open_position (c : LiquidationControl)
    (proposed_size entry_price balance leverage current_positions_size : ℚ) : Bool :=
  if ¬c.enabled then
    true
  else
    let total_size := (|current_positions_size| + |proposed_size|) * entry_price
    let max_position_value := balance * leverage
    total_size ≤ max_position_value

/-! ## PanicSellManager (src/risk/panic_sell.rs) -/

/-- `PanicSellManager` configuration record (it has no mutable state). -/
structure PanicSellManager where
  enabled : Bool
  drop_to_percent : ℚ
  spread_percent : ℚ
  auto_panic_if_drop : Option ℚ
  panic_if_bids_drop : Option ℚ
  deriving Repr, DecidableEq

/-- `PanicSellManager::calculate_panic_price`:
`target = buy_price * drop_to_percent` then `target * (1 - spread_percent)`. -/
def PanicSellManager.calculate_panic_price (m : PanicSellManager) (buy_price : ℚ) : ℚ :=
  let target_price := buy_price * m.drop_to_percent
  target_price * (1 - m.spread_percent)

/-- `PanicSellManager::should_panic_sell`.  The second check (BIDs dropped)
runs only when the first (auto panic on price drop) did not fire. -/
def PanicSellManager.should_panic_sell (m : PanicSellManager)
    (buy_price current_price : ℚ) (best_bid : Option ℚ) : Option ℚ :=
  if ¬m.enabled ∨ buy_price ≤ 0 then
    none
  else
    let bid_check : Option ℚ :=
      match m.panic_if_bids_drop, best_bid with
      | some threshold, some bid =>
        if bid < buy_price * (1 + threshold / 100) then
          some (m.calculate_panic_price buy_price)
        else
          none
      | _, _ => none
    match m.auto_panic_if_drop with
    | some threshold =>
      if current_price < buy_price * (1 - |threshold| / 100) then
        some (m.calculate_panic_price buy_price)
      else
        bid_check
    | none => bid_check

/-! ## AutoStopManager (src/risk/auto_stop.rs)

`Utc::now()` appears inside `record_error`, `stop` and `should_restart`;
each embedded operation therefore takes the current time explicitly. -/

/-- `StopReason` enum. -/
inductive StopReason where
  | None
  | ErrorLevelExceeded
  | PingTooHigh
  | Manual
  deriving Repr, DecidableEq

/-- `AutoStopManager` state. -/
structure AutoStopManager where
  max_error_level : ℕ
  current_error_level : ℕ
  max_ping_ms : ℕ
  panic_sell_on_stop : Bool
  restart_after_minutes : Option ℕ
  stopped_at : Option ℤ
  stop_reason : StopReason
  error_history : List ℤ
  deriving Repr, DecidableEq

/-- `AutoStopManager::new`. -/
def AutoStopManager.new (max_error_level max_ping_ms : ℕ)
    (panic_sell_on_stop : Bool) (restart_after_minutes : Option ℕ) : AutoStopManager :=
  ⟨max_error_level, 0, max_ping_ms, panic_sell_on_stop, restart_after_minutes,
    none, .None, []⟩

/-- `AutoStopManager::record_error` at time `now`: push `now`, retain the
entries strictly younger than one hour (3600000 ms), then set the level to
the retained length (the intermediate `+= 1` is overwritten by this final
assignment and is therefore not modelled separately). -/
def AutoStopManager.record_error (s : AutoStopManager) (now : ℤ) : AutoStopManager :=
  let history := (s.error_history ++ [now]).filter (fun ts => now - ts < 3600000)
  { s with error_history := history, current_error_level := history.length }

/-- `AutoStopManager::stop` at time `now`: idempotent. -/
def AutoStopManager.stop (s : AutoStopManager) (reason : StopReason) (now : ℤ) :
    AutoStopManager :=
  if s.stopped_at = none then
    { s with stopped_at := some now, stop_reason := reason }
  else
    s

/-- `AutoStopManager::check_ping` at time `now`: returns the verdict and the
successor state. -/
def AutoStopManager.check_ping (s : AutoStopManager) (ping_ms : ℕ) (now : ℤ) :
    Bool × AutoStopManager :=
  if ping_ms > s.max_ping_ms then
    (true, s.stop .PingTooHigh now)
  else
    (false, s)

/-- `AutoStopManager::check_errors` at time `now`. -/
def AutoStopManager.check_errors (s : AutoStopManager) (now : ℤ) :
    Bool × AutoStopManager :=
  if s.current_error_level ≥ s.max_error_level then
    (true, s.stop .ErrorLevelExceeded now)
  else
    (false, s)

/-- `AutoStopManager::should_restart` at time `now`. -/
def AutoStopManager.should_restart (s : AutoStopManager) (now : ℤ) : Bool :=
  match s.stopped_at, s.restart_after_minutes with
  | some stopped_at, some minutes => now - stopped_at ≥ (minutes : ℤ) * 60000
  | _, _ => false

/-- `AutoStopManager::restart`. -/
def AutoStopManager.restart (s : AutoStopManager) : AutoStopManager :=
  { s with
    stopped_at := none
    stop_reason := .None
    current_error_level := 0
    error_history := [] }

/-- `AutoStopManager::is_stopped`. -/
def AutoStopManager.is_stopped (s : AutoStopManager) : Bool :=
  s.stopped_at.isSome

/-! ## DeltaCalculator (src/backtest/delta_calculator.rs) -/

/-- `PricePoint`: timestamp (ms) and price. -/
structure PricePoint where
  timestamp : ℤ
  price : ℚ
  deriving Repr, DecidableEq

/-- Substring test used for `tick.symbol.contains("BTC")`. -/
def containsSubstring (needle hay : String) : Bool :=
  hay.toList.tails.any (fun t => needle.toList.isPrefixOf t)

/-- `DeltaCalculator` state: three price histories (front of the `VecDeque`
at the head of the list) and the maximal history duration in ms. -/
structure DeltaCalculator where
  price_history : List PricePoint
  btc_price_history : List PricePoint
  market_price_history : List PricePoint
  max_history_duration : ℤ
  deriving Repr, DecidableEq

/-- `DeltaCalculator::new()`: empty histories, 24 h retention. -/
def DeltaCalculator.new : DeltaCalculator :=
  ⟨[], [], [], 24 * 3600000⟩

/-- `DeltaCalculator::cleanup`: pop the front of each history while it is
older than `current_time - max_history_duration` (a `dropWhile` on the
front-first list). -/
def DeltaCalculator.cleanup (c : DeltaCalculator) (current_time : ℤ) : DeltaCalculator :=
  let cutoff := current_time - c.max_history_duration
  { c with
    price_history := c.price_history.dropWhile (fun p => p.timestamp < cutoff)
    btc_price_history := c.btc_price_history.dropWhile (fun p => p.timestamp < cutoff)
    market_price_history := c.market_price_history.dropWhile (fun p => p.timestamp < cutoff) }

/-- `DeltaCalculator::update`: append the tick's point to the symbol and
market histories, to the BTC history when the symbol contains "BTC" or is
exactly "BTC_USDT", then cleanup. -/
def DeltaCalculator.update (c : DeltaCalculator) (tick : TradeTick)
    (current_time : ℤ) : DeltaCalculator :=
  let point : PricePoint := ⟨tick.timestamp, tick.price⟩
  let c := { c with price_history := c.price_history ++ [point] }
  let c :=
    if containsSubstring "BTC" tick.symbol || tick.symbol == "BTC_USDT" then
      { c with btc_price_history := c.btc_price_history ++ [point] }
    else
      c
  let c := { c with market_price_history := c.market_price_history ++ [point] }
  c.cleanup current_time

/-- `DeltaCalculator::calculate_delta_percent`: percent change of
`current_price` against the first point inside the window, falling back to
the oldest point and then to `current_price` itself; guarded against
non-positive start prices. -/
def DeltaCalculator.calculate_delta_percent (history : List PricePoint)
    (current_price : ℚ) (current_time window : ℤ) : ℚ :=
  let cutoff := current_time - window
  let start_price :=
    match history.find? (fun p => p.timestamp ≥ cutoff) with
    | some p => p.price
    | none =>
      match history.head? with
      | some p => p.price
      | none => current_price
  if start_price > 0 then
    ((current_price - start_price) / start_price) * 100
  else
    0

/-! ## MStrike strategy (src/strategy/moon_strategies/mstrike.rs) -/

/-- `MStrikeDirection` enum. -/
inductive MStrikeDirection where
  | Both
  | OnlyLong
  | OnlyShort
  deriving Repr, DecidableEq

/-- `MStrikeConfig`. -/
structure MStrikeConfig where
  mstrike_depth : ℚ
  mstrike_volume : ℚ
  mstrike_buy_delay : ℕ
  mstrike_buy_level : ℚ
  mstrike_buy_relative : Bool
  mstrike_sell_level : ℚ
  mstrike_sell_adjust : ℚ
  mstrike_add_hourly_delta : ℚ
  mstrike_add_15min_delta : ℚ
  mstrike_add_market_delta : ℚ
  mstrike_add_btc_delta : ℚ
  mstrike_direction : MStrikeDirection
  mstrike_wait_dip : Bool
  mstrike_wait_dip_timeout : ℕ
  order_size : ℚ
  use_stop_loss : Bool
  use_trailing : Bool
  use_take_profit : Bool
  deriving Repr, DecidableEq

/-- `MStrikeConfig::default()`. -/
def MStrikeConfig.default : MStrikeConfig :=
  ⟨10, 0, 0, 0, true, 80, 0, 0, 0, 0, 0, .Both, false, 10000, 100, false, false, false⟩

/-- `MStrikeState`. -/
structure MStrikeState where
  last_bid_ema : Option ℚ
  bid_history : List (ℤ × ℚ)
  min_price_during_strike : Option ℚ
  strike_start_time : Option ℤ
  strike_volume : ℚ
  price_before_strike : Option ℚ
  active_order_id : Option ℕ
  buy_price : Option ℚ
  position_size : ℚ
  delta_hourly : ℚ
  delta_15min : ℚ
  delta_market : ℚ
  delta_btc : ℚ
  waiting_for_dip_reversal : Bool
  dip_wait_start : Option ℤ
  last_price_before_dip : Option ℚ
  deriving Repr, DecidableEq

/-- `MStrikeSignal`.  The `reason` of `PlaceBuy` is a human-readable message;
the numeric formatting of the source's `format!` string is abstracted to a
fixed label. -/
inductive MStrikeSignal where
  | NoAction
  | DetectStrike (depth volume min_price : ℚ)
  | PlaceBuy (price size : ℚ) (reason : String)
  | PlaceSell (price size : ℚ)
  | CancelOrder (order_id : ℕ)
  deriving Repr, DecidableEq

/-- The state built by `MStrikeStrategy::new`. -/
def MStrikeState.initial : MStrikeState :=
  ⟨none, [], none, none, 0, none, none, none, 0, 0, 0, 0, 0, false, none, none⟩

/-- `MStrikeStrategy::update_deltas`. -/
def MStrikeState.update_deltas (s : MStrikeState) (d : Deltas) : MStrikeState :=
  { s with
    delta_hourly := d.delta_hourly
    delta_15min := d.delta_15min
    delta_market := d.delta_market
    delta_btc := d.delta_btc }

/-- `MStrikeStrategy::update_bid_history`: push the pair, keep at most the
last 10 samples. -/
def MStrikeState.update_bid_history (s : MStrikeState) (timestamp : ℤ) (bid : ℚ) :
    MStrikeState :=
  let h := s.bid_history ++ [(timestamp, bid)]
  let h := if h.length > 10 then h.tail else h
  { s with bid_history := h }

/-- `MStrikeStrategy::update_last_bid_ema`.  The `current_bid` parameter is
unused in the source as well (the history carries all the data). -/
def MStrikeState.update_last_bid_ema (s : MStrikeState) (_current_bid : ℚ) :
    MStrikeState :=
  if s.bid_history.length < 4 then
    s
  else
    let bids := s.bid_history.map Prod.snd
    let prev_bid :=
      if bids.length ≥ 2 then bids.getD (bids.length - 2) 0
      else bids.getD (bids.length - 1) 0
    let multiplier : ℚ := 2 / (4 + 1)
    let recent_bids := bids.drop (bids.length - 4)
    let ema :=
      match recent_bids with
      | [] => 0
      | b0 :: rest => rest.foldl (fun e bid => bid * multiplier + e * (1 - multiplier)) b0
    match s.last_bid_ema with
    | some last_ema =>
      if prev_bid < last_ema then
        { s with last_bid_ema := some prev_bid }
      else
        { s with last_bid_ema := some ema }
    | none => { s with last_bid_ema := some ema }

/-- `MStrikeStrategy::calculate_effective_depth`. -/
def MStrikeStrategy.calculate_effective_depth (cfg : MStrikeConfig)
    (s : MStrikeState) : ℚ :=
  let depth := cfg.mstrike_depth
    + s.delta_hourly * cfg.mstrike_add_hourly_delta
    + s.delta_15min * cfg.mstrike_add_15min_delta
    + s.delta_market * cfg.mstrike_add_market_delta
    + s.delta_btc * cfg.mstrike_add_btc_delta
  max depth (1/10)

/-- `MStrikeStrategy::calculate_sell_price`: the source first unwraps
`price_before_strike` (panic when `None`, modelled by `none`) even though the
value is unused afterwards. -/
def MStrikeStrategy.calculate_sell_price (cfg : MStrikeConfig) (s : MStrikeState)
    (min_price depth : ℚ) : Option ℚ :=
  match s.price_before_strike with
  | none => none
  | some _ => some (min_price * (1 + (depth * cfg.mstrike_sell_level / 100) / 100))

/-- `MStrikeStrategy::place_buy_order`: computes the buy price, records the
pending position and emits `PlaceBuy`.  Panics (`none`) when
`price_before_strike` is unset. -/
def MStrikeStrategy.place_buy_order (cfg : MStrikeConfig) (s : MStrikeState)
    (min_price depth : ℚ) : Option (MStrikeState × MStrikeSignal) :=
  match s.price_before_strike with
  | none => none
  | some price_before =>
    let buy_price :=
      if cfg.mstrike_buy_relative then
        if cfg.mstrike_buy_level = 0 then
          min_price
        else
          let level_from_min := depth * (cfg.mstrike_buy_level / 100)
          min_price * (1 + level_from_min / 100)
      else
        price_before * (1 - cfg.mstrike_buy_level / 100)
    let s := { s with buy_price := some buy_price, position_size := cfg.order_size }
    -- the source also precomputes the sell price here; the value is unused
    some (s, .PlaceBuy buy_price cfg.order_size "MStrike detected")

/-- `MStrikeStrategy::detect_strike`.  Outer `none` models a panic; the inner
`Option MStrikeSignal` is the source's return value.  Note the fall-through:
when no strike is being tracked and the price is not below `LastBidEMA`, the
source reaches the unconditional `min_price_during_strike.unwrap()` with the
field still `None` and panics. -/
def MStrikeStrategy.detect_strike (cfg : MStrikeConfig) (s : MStrikeState)
    (tick : TradeTick) : Option (MStrikeState × Option MStrikeSignal) :=
  match s.last_bid_ema with
  | none => some (s, none)
  | some last_bid_ema =>
    let effective_depth := MStrikeStrategy.calculate_effective_depth cfg s
    match s.min_price_during_strike with
    | none =>
      if tick.price < last_bid_ema then
        some ({ s with
          strike_start_time := some tick.timestamp
          min_price_during_strike := some tick.price
          price_before_strike := some last_bid_ema
          strike_volume := tick.volume }, none)
      else
        none
    | some min0 =>
      let s :=
        if tick.price < min0 then
          { s with
            min_price_during_strike := some tick.price
            strike_volume := s.strike_volume + tick.volume }
        else
          s
      match s.min_price_during_strike, s.price_before_strike with
      | some min_price, some price_before =>
        let depth := ((price_before - min_price) / price_before) * 100
        if depth ≥ effective_depth then
          if s.strike_volume ≥ cfg.mstrike_volume then
            let signal := MStrikeSignal.DetectStrike depth s.strike_volume min_price
            if cfg.mstrike_buy_delay > 0 then
              some (s, some signal)
            else if cfg.mstrike_wait_dip then
              some ({ s with
                waiting_for_dip_reversal := true
                dip_wait_start := some tick.timestamp
                last_price_before_dip := some tick.price }, some signal)
            else
              (MStrikeStrategy.place_buy_order cfg s min_price depth).map
                (fun r => (r.1, some r.2))
          else
            some (s, none)
        else
          some (s, none)
      | _, _ => none

/-- `MStrikeStrategy::reset_strike_state`. -/
def MStrikeStrategy.reset_strike_state (s : MStrikeState) : MStrikeState :=
  { s with
    min_price_during_strike := none
    strike_start_time := none
    strike_volume := 0
    price_before_strike := none
    waiting_for_dip_reversal := false
    dip_wait_start := none
    last_price_before_dip := none }

/-- `MStrikeStrategy::check_dip_reversal`.  The `as u64` cast of the elapsed
time wraps a negative difference to a huge unsigned value, so a negative
elapsed time also triggers the timeout branch. -/
def MStrikeStrategy.check_dip_reversal (cfg : MStrikeConfig) (s : MStrikeState)
    (tick : TradeTick) : Option (MStrikeState × MStrikeSignal) :=
  let reversal (s : MStrikeState) : Option (MStrikeState × MStrikeSignal) :=
    match s.last_price_before_dip with
    | some last_price =>
      if tick.price > last_price then
        let s := { s with waiting_for_dip_reversal := false }
        match s.min_price_during_strike, s.price_before_strike with
        | some min_price, some price_before =>
          let depth := ((price_before - min_price) / price_before) * 100
          MStrikeStrategy.place_buy_order cfg s min_price depth
        | _, _ => none
      else
        some (s, .NoAction)
    | none => some (s, .NoAction)
  match s.dip_wait_start with
  | some wait_start =>
    let elapsed := tick.timestamp - wait_start
    if elapsed > (cfg.mstrike_wait_dip_timeout : ℤ) ∨ elapsed < 0 then
      some (MStrikeStrategy.reset_strike_state s, .NoAction)
    else
      reversal s
  | none => reversal s

/-- `MStrikeStrategy::manage_position`: unwraps `buy_price`,
`min_price_during_strike` and `price_before_strike` (panic when any is
`None`). -/
def MStrikeStrategy.manage_position (cfg : MStrikeConfig) (s : MStrikeState)
    (tick : TradeTick) : Option (MStrikeState × MStrikeSignal) :=
  match s.buy_price, s.min_price_during_strike with
  | some _buy_price, some min_price =>
    match s.price_before_strike with
    | none => none
    | some price_before =>
      let depth := ((price_before - min_price) / price_before) * 100
      match MStrikeStrategy.calculate_sell_price cfg s min_price depth with
      | none => none
      | some sell_price =>
        if tick.price ≥ sell_price then
          some (s, .PlaceSell sell_price s.position_size)
        else
          some (s, .NoAction)
  | _, _ => none

/-- `MStrikeStrategy::on_tick`. -/
def MStrikeStrategy.on_tick (cfg : MStrikeConfig) (s : MStrikeState)
    (tick : TradeTick) (deltas : Deltas) : Option (MStrikeState × MStrikeSignal) :=
  let current_bid := tick.best_bid.getD tick.price
  let s := s.update_deltas deltas
  let s := s.update_bid_history tick.timestamp current_bid
  let s := s.update_last_bid_ema current_bid
  if s.buy_price.isSome then
    MStrikeStrategy.manage_position cfg s tick
  else if s.waiting_for_dip_reversal then
    MStrikeStrategy.check_dip_reversal cfg s tick
  else
    (MStrikeStrategy.detect_strike cfg s tick).map (fun r => (r.1, r.2.getD .NoAction))

/-- `MStrikeStrategy::on_buy_filled`. -/
def MStrikeStrategy.on_buy_filled (s : MStrikeState) (price size : ℚ) : MStrikeState :=
  { s with buy_price := some price, position_size := size, active_order_id := some 0 }

/-- `MStrikeStrategy::on_sell_filled`. -/
def MStrikeStrategy.on_sell_filled (s : MStrikeState) : MStrikeState :=
  MStrikeStrategy.reset_strike_state
    { s with buy_price := none, position_size := 0, active_order_id := none }

/-- Feed a list of ticks (with their `Deltas` snapshots) through
`MStrikeStrategy::on_tick`; `none` as soon as one tick panics. -/
def MStrikeStrategy.run_ticks (cfg : MStrikeConfig) (s : MStrikeState) :
    List (TradeTick × Deltas) → Option MStrikeState
  | [] => some s
  | (t, d) :: rest =>
    match MStrikeStrategy.on_tick cfg s t d with
    | none => none
    | some (s', _) => MStrikeStrategy.run_ticks cfg s' rest

/-! ## Hook strategy (src/strategy/moon_strategies/hook.rs) -/

/-- `HookDirection` enum. -/
inductive HookDirection where
  | Long
  | Short
  | Both
  deriving Repr, DecidableEq

/-- `HookConfig`.  `hook_time_frame` is a duration in ms. -/
structure HookConfig where
  hook_time_frame : ℤ
  hook_detect_depth : ℚ
  hook_detect_depth_max : ℚ
  hook_initial_price : ℚ
  hook_price_distance : ℚ
  hook_price_roll_back : ℚ
  hook_price_roll_back_max : ℚ
  hook_roll_back_wait : ℕ
  hook_anti_pump : Bool
  hook_drop_min : ℚ
  hook_drop_max : ℚ
  hook_direction : HookDirection
  hook_opposite_order : Bool
  hook_interpolate : ℕ
  buy_order_reduce : ℕ
  min_reduced_size : ℚ
  hook_sell_level : ℚ
  hook_sell_fixed : Bool
  hook_replace_delay : ℚ
  hook_raise_wait : ℚ
  hook_part_filled_delay : ℕ
  hook_repeat_after_sell : Bool
  hook_repeat_if_profit : ℚ
  order_size : ℚ
  buy_modifier : ℚ
  use_stop_loss : Bool
  use_trailing : Bool
  deriving Repr, DecidableEq

/-- `HookConfig::default()`. -/
def HookConfig.default : HookConfig :=
  ⟨2000, 5, 0, 25, 10, 33, 0, 100, false, 0, 0, .Long, false, 0, 100, 0, 75,
    false, 0, 0, 0, false, 0, 100, -3, false, false⟩

/-- `RepeatOrderState`. -/
structure RepeatOrderState where
  buy_price : ℚ
  sell_price : ℚ
  placed_at : ℤ
  deriving Repr, DecidableEq

/-- `HookState`. -/
structure HookState where
  price_window : List (ℤ × ℚ)
  volume_window : List (ℤ × ℚ)
  strike_detected : Bool
  strike_detection_time : Option ℤ
  strike_depth : ℚ
  strike_min_price : ℚ
  strike_max_price : ℚ
  strike_rollback_price : Option ℚ
  deltas_at_detection : Option Deltas
  corridor_upper : Option ℚ
  corridor_lower : Option ℚ
  initial_buy_price : Option ℚ
  active_order_id : Option ℕ
  buy_price : Option ℚ
  position_size : ℚ
  repeat_orders : List RepeatOrderState
  deriving Repr, DecidableEq

/-- `HookSignal`.  As in `MStrikeSignal`, the formatted `reason` text is
abstracted to a fixed label. -/
inductive HookSignal where
  | NoAction
  | DetectHook (depth min_price max_price : ℚ)
  | PlaceBuy (price size : ℚ) (reason : String)
  | ReplaceBuy (new_price : ℚ)
  | PlaceSell (price size : ℚ)
  | CancelOrder (order_id : ℕ)
  deriving Repr, DecidableEq

/-- The state built by `HookStrategy::new`. -/
def HookState.initial : HookState :=
  ⟨[], [], false, none, 0, 0, 0, none, none, none, none, none, none, none, 0, []⟩

/-- `HookStrategy::update_window`: push the tick data and drop the prefix
older than `timestamp - hook_time_frame` from both windows. -/
def HookStrategy.update_window (cfg : HookConfig) (s : HookState)
    (timestamp : ℤ) (price volume : ℚ) : HookState :=
  let cutoff := timestamp - cfg.hook_time_frame
  { s with
    price_window :=
      (s.price_window ++ [(timestamp, price)]).dropWhile (fun p => p.1 < cutoff)
    volume_window :=
      (s.volume_window ++ [(timestamp, volume)]).dropWhile (fun p => p.1 < cutoff) }

/-- `HookStrategy::calculate_corridor` on the detection fields of `s`.  The
source's `fold` over `f64` starts the maximum at `0.0`; the rollback falls
back to `max_price` when unset.  The `BuyModifier` branch is a TODO in the
source and has no effect. -/
def HookStrategy.calculate_corridor (cfg : HookConfig) (s : HookState) : HookState :=
  let depth := s.strike_depth
  let max_price := s.strike_max_price
  let min_price := s.strike_min_price
  let rollback := s.strike_rollback_price.getD max_price
  let result : ℚ × ℚ × ℚ :=
    match cfg.hook_interpolate with
    | 0 =>
      let initial := min_price + (max_price - min_price) * (cfg.hook_initial_price / 100)
      (max_price, min_price, initial)
    | 1 =>
      let initial := rollback - (rollback - min_price) * (cfg.hook_initial_price / 100)
      (rollback, min_price, initial)
    | 2 =>
      let distance := depth * cfg.hook_price_distance / 100
      let initial := min_price + (max_price - min_price) * (cfg.hook_initial_price / 100)
      (initial + distance * (max_price / 100), initial - distance * (max_price / 100), initial)
    | 3 =>
      let current := ((s.price_window.getLast?).map Prod.snd).getD max_price
      let distance := depth * cfg.hook_price_distance / 100
      (current * (1 + distance / 100), current * (1 - distance / 100),
        current * (1 - cfg.hook_initial_price / 100))
    | 4 =>
      let distance := depth * cfg.hook_price_distance / 100
      let initial := min_price + (rollback - min_price) * (cfg.hook_initial_price / 100)
      let upper := (initial + rollback) / 2
      let lower := initial - distance * (max_price / 100)
      (max upper initial, min lower initial, initial)
    | _ =>
      let initial := min_price + (max_price - min_price) * (cfg.hook_initial_price / 100)
      (max_price, min_price, initial)
  { s with
    corridor_upper := some result.1
    corridor_lower := some result.2.1
    initial_buy_price := some result.2.2 }

/-- `HookStrategy::calculate_order_size`: average windowed volume scaled to
the `buy_order_reduce` interval, capped by `order_size`. -/
def HookStrategy.calculate_order_size (cfg : HookConfig) (s : HookState) : ℚ :=
  if cfg.buy_order_reduce = 0 then
    cfg.order_size
  else
    let total_volume := (s.volume_window.map Prod.snd).sum
    let time_window_ms : ℚ := (cfg.hook_time_frame : ℚ)
    let avg_volume_per_interval := total_volume / time_window_ms * (cfg.buy_order_reduce : ℚ)
    min cfg.order_size avg_volume_per_interval

/-- The maximum of the windowed prices as `detect_hook` computes it: a fold
starting at `0.0`. -/
def HookStrategy.window_max_price (s : HookState) : ℚ :=
  (s.price_window.map Prod.snd).foldl max 0

/-- The minimum of the windowed prices as `detect_hook` computes it.  The
source folds `min` starting at `f64::INFINITY`; on a non-empty window this
equals folding from the first price. -/
def HookStrategy.window_min_price (s : HookState) : ℚ :=
  match s.price_window.map Prod.snd with
  | [] => 0
  | p :: rest => rest.foldl min p

/-- The spike depth `((max − min) / max) · 100` of `detect_hook`. -/
def HookStrategy.window_depth (s : HookState) : ℚ :=
  ((HookStrategy.window_max_price s - HookStrategy.window_min_price s)
    / HookStrategy.window_max_price s) * 100

/-- `HookStrategy::detect_hook`.  Outer `none` models a panic; the inner
`Option HookSignal` is the source's return value.  The detection state and
the corridor are committed before the order-size check, so an aborted
detection (size below `min_reduced_size`) still records the detection. -/
def HookStrategy.detect_hook (cfg : HookConfig) (s : HookState) (tick : TradeTick)
    (deltas : Deltas) : Option (HookState × Option HookSignal) :=
  if s.price_window.length < 2 then
    some (s, none)
  else
    let max_price := HookStrategy.window_max_price s
    let min_price := HookStrategy.window_min_price s
    let depth := HookStrategy.window_depth s
    if depth < cfg.hook_detect_depth then
      some (s, none)
    else if cfg.hook_detect_depth_max > 0 ∧ depth > cfg.hook_detect_depth_max then
      some (s, none)
    else
      let rollback_price :=
        max_price - (depth * cfg.hook_price_roll_back / 100) * (max_price / 100)
      let s := { s with
        strike_detected := true
        strike_detection_time := some tick.timestamp
        strike_depth := depth
        strike_min_price := min_price
        strike_max_price := max_price
        deltas_at_detection := some deltas
        strike_rollback_price := some rollback_price }
      let s := HookStrategy.calculate_corridor cfg s
      let order_size := HookStrategy.calculate_order_size cfg s
      if order_size < cfg.min_reduced_size then
        some (s, none)
      else
        match s.initial_buy_price with
        | none => none
        | some buy_price =>
          some (s, some (.PlaceBuy buy_price order_size "Hook detected"))

/-- `HookStrategy::manage_corridor_order`: unwraps the corridor bounds and
`initial_buy_price` (panic when unset), then replaces the order at
`0.99 ×` the touched bound. -/
def HookStrategy.manage_corridor_order (s : HookState) (tick : TradeTick) :
    Option HookSignal :=
  match s.corridor_upper, s.corridor_lower, s.initial_buy_price with
  | some upper, some lower, some _buy_price =>
    if tick.price ≤ lower then
      some (.ReplaceBuy (lower * 0.99))
    else if tick.price ≥ upper then
      some (.ReplaceBuy (upper * 0.99))
    else
      some .NoAction
  | _, _, _ => none

/-- `HookStrategy::manage_position`. -/
def HookStrategy.manage_position (cfg : HookConfig) (s : HookState)
    (tick : TradeTick) : Option HookSignal :=
  match s.buy_price with
  | none => none
  | some buy_price =>
    let depth := s.strike_depth
    let sell_price :=
      if cfg.hook_sell_fixed then
        s.strike_min_price * (1 + (depth * cfg.hook_sell_level / 100) / 100)
      else
        buy_price * (1 + (depth * cfg.hook_sell_level / 100) / 100)
    if tick.price ≥ sell_price then
      some (.PlaceSell sell_price s.position_size)
    else
      some .NoAction

/-- `HookStrategy::can_detect_again`. -/
def HookStrategy.can_detect_again (cfg : HookConfig) (s : HookState) (now : ℤ) : Bool :=
  match s.strike_detection_time with
  | some detection_time => now - detection_time ≥ cfg.hook_time_frame
  | none => true

/-- `HookStrategy::on_tick`. -/
def HookStrategy.on_tick (cfg : HookConfig) (s : HookState) (tick : TradeTick)
    (deltas : Deltas) : Option (HookState × HookSignal) :=
  let s := HookStrategy.update_window cfg s tick.timestamp tick.price tick.volume
  if s.buy_price.isSome then
    (HookStrategy.manage_position cfg s tick).map (fun sig => (s, sig))
  else if s.active_order_id.isSome && s.corridor_upper.isSome then
    (HookStrategy.manage_corridor_order s tick).map (fun sig => (s, sig))
  else if !s.strike_detected || HookStrategy.can_detect_again cfg s tick.timestamp then
    (HookStrategy.detect_hook cfg s tick deltas).map (fun r => (r.1, r.2.getD .NoAction))
  else
    some (s, .NoAction)

/-- `HookStrategy::on_buy_filled`. -/
def HookStrategy.on_buy_filled (s : HookState) (price size : ℚ) : HookState :=
  { s with buy_price := some price, position_size := size, active_order_id := some 0 }

/-- `HookStrategy::on_sell_filled`: unwraps `buy_price` first (panic when no
position, modelled by `none`); the corridor is deliberately kept.  `now`
stands for the source's `Utc::now()` used for the repeat-order record. -/
def HookStrategy.on_sell_filled (cfg : HookConfig) (s : HookState) (now : ℤ) :
    Option HookState :=
  match s.buy_price with
  | none => none
  | some buy_price =>
    let s :=
      if cfg.hook_repeat_after_sell then
        { s with repeat_orders := s.repeat_orders ++ [⟨buy_price, 0, now⟩] }
      else
        s
    some { s with buy_price := none, position_size := 0, active_order_id := none }

/-- States of `AutoStopManager` reachable from a fresh manager by
`record_error`, `check_ping`, `check_errors`, `stop` and `restart`, where
`stop` is invoked — as the code itself does from `check_ping` and
`check_errors` — with an actual reason, never with the `StopReason::None`
sentinel. -/
inductive AutoStopReachable : AutoStopManager → Prop where
  | init (mel mp : ℕ) (pf : Bool) (ra : Option ℕ) :
      AutoStopReachable (AutoStopManager.new mel mp pf ra)
  | record_error {s} (now : ℤ) :
      AutoStopReachable s → AutoStopReachable (s.record_error now)
  | check_ping {s} (ms : ℕ) (now : ℤ) :
      AutoStopReachable s → AutoStopReachable (s.check_ping ms now).2
  | check_errors {s} (now : ℤ) :
      AutoStopReachable s → AutoStopReachable (s.check_errors now).2
  | stop {s} (r : StopReason) (now : ℤ) (hr : r ≠ .None) :
      AutoStopReachable s → AutoStopReachable (s.stop r now)
  | restart {s} :
      AutoStopReachable s → AutoStopReachable s.restart

/-- States of `HookStrategy` reachable from a fresh strategy by any sequence
of `on_tick`, `on_buy_filled` and `on_sell_filled` calls.  A call that panics
(returns `none` in the embedding) has no successor state. -/
inductive HookReachable (cfg : HookConfig) : HookState → Prop where
  | init : HookReachable cfg HookState.initial
  | tick {s s' : HookState} {sig : HookSignal} (t : TradeTick) (d : Deltas) :
      HookReachable cfg s → HookStrategy.on_tick cfg s t d = some (s', sig) →
      HookReachable cfg s'
  | buy_filled {s : HookState} (price size : ℚ) :
      HookReachable cfg s →
      HookReachable cfg (HookStrategy.on_buy_filled s price size)
  | sell_filled {s s' : HookState} (now : ℤ) :
      HookReachable cfg s → HookStrategy.on_sell_filled cfg s now = some s' →
      HookReachable cfg s'

/-! ## Theorems -/

/-- C1 counterexample: with `mstrike_buy_relative` and `mstrike_buy_level`
= 300 (which is ≥ 0), a tracked strike with `min_price_during_strike` = 50
and `price_before_strike` = 100 makes `on_tick` emit `PlaceBuy` at price
125, outside the claimed interval [50, 100]. -/
theorem C1_counterexample :
    (MStrikeStrategy.on_tick
      ⟨10, 0, 0, 300, true, 80, 0, 0, 0, 0, 0, .Both, false, 10000, 100, false, false, false⟩
      ⟨some 100, [], some 50, some 0, 0, some 100, none, none, 0, 0, 0, 0, 0, false, none, none⟩
      ⟨1, "AAA_USDT", 60, 0, some 60, some 60⟩ Deltas.default).map
        (fun r => (r.2, r.1.min_price_during_strike, r.1.price_before_strike))
      = some ((.PlaceBuy 125 100 "MStrike detected", some 50, some 100)) ∧
    ¬((125 : ℚ) ≤ 100) := by
  constructor
  · norm_num [MStrikeStrategy.on_tick, Deltas.default, MStrikeState.update_deltas,
      MStrikeState.update_bid_history, MStrikeState.update_last_bid_ema,
      MStrikeStrategy.detect_strike, MStrikeStrategy.calculate_effective_depth,
      MStrikeStrategy.manage_position, MStrikeStrategy.check_dip_reversal,
      MStrikeStrategy.place_buy_order]
  · norm_num

/-- Helper: bounds for the relative MStrike buy-price formula.  With
`0 ≤ lvl ≤ 100`, `0 < m ≤ pb`, the price
`m · (1 + ((pb − m)/pb · 100) · (lvl/100) / 100)` (or `m` itself when
`lvl = 0`) lies in `[m, pb]`. -/
theorem buy_price_in_range (lvl m pb : ℚ) (h0 : 0 ≤ lvl) (h100 : lvl ≤ 100)
    (hm : 0 < m) (hmpb : m ≤ pb) :
    m ≤ (if lvl = 0 then m
      else m * (1 + ((pb - m) / pb * 100) * (lvl / 100) / 100)) ∧
    (if lvl = 0 then m
      else m * (1 + ((pb - m) / pb * 100) * (lvl / 100) / 100)) ≤ pb := by
  have hpb : 0 < pb := lt_of_lt_of_le hm hmpb
  by_cases h : lvl = 0
  · simp [h, hmpb]
  · rw [if_neg h]
    have hq0 : 0 ≤ (pb - m) / pb := div_nonneg (by linarith) hpb.le
    have hqpb : (pb - m) / pb * pb = pb - m := div_mul_cancel₀ _ hpb.ne'
    have hexp : m * (1 + ((pb - m) / pb * 100) * (lvl / 100) / 100)
        = m + m * ((pb - m) / pb) * (lvl / 100) := by ring
    constructor
    · rw [hexp]
      nlinarith [mul_nonneg (mul_nonneg hm.le hq0) (by linarith : (0 : ℚ) ≤ lvl / 100)]
    · rw [hexp]
      have h1 : m * (lvl / 100) ≤ pb := by nlinarith
      have h2 : m * ((pb - m) / pb) * (lvl / 100) ≤ pb * ((pb - m) / pb) := by
        nlinarith
      nlinarith

/-- Helper: the per-tick preamble of `MStrikeStrategy::on_tick` (delta, bid
history and EMA updates) does not change the detection, waiting or position
fields. -/
theorem mstrike_preamble_fields (s : MStrikeState) (d : Deltas) (ts : ℤ) (b : ℚ) :
    (((s.update_deltas d).update_bid_history ts b).update_last_bid_ema b).min_price_during_strike
        = s.min_price_during_strike ∧
    (((s.update_deltas d).update_bid_history ts b).update_last_bid_ema b).price_before_strike
        = s.price_before_strike ∧
    (((s.update_deltas d).update_bid_history ts b).update_last_bid_ema b).buy_price
        = s.buy_price ∧
    (((s.update_deltas d).update_bid_history ts b).update_last_bid_ema b).waiting_for_dip_reversal
        = s.waiting_for_dip_reversal ∧
    (((s.update_deltas d).update_bid_history ts b).update_last_bid_ema b).strike_volume
        = s.strike_volume ∧
    (((s.update_deltas d).update_bid_history ts b).update_last_bid_ema b).dip_wait_start
        = s.dip_wait_start ∧
    (((s.update_deltas d).update_bid_history ts b).update_last_bid_ema b).last_price_before_dip
        = s.last_price_before_dip := by
  refine ⟨?_, ?_, ?_, ?_, ?_, ?_, ?_⟩ <;>
    (simp only [MStrikeState.update_deltas, MStrikeState.update_bid_history,
      MStrikeState.update_last_bid_ema]) <;>
    (repeat' split) <;> rfl

/-- Helper: `manage_position` never emits `PlaceBuy`. -/
theorem manage_position_no_place_buy (cfg : MStrikeConfig) (s : MStrikeState)
    (tick : TradeTick) (s' : MStrikeState) (sig : MStrikeSignal)
    (h : MStrikeStrategy.manage_position cfg s tick = some (s', sig)) :
    ∀ p sz r, sig ≠ .PlaceBuy p sz r := by
  intro p sz r hc
  subst hc
  unfold MStrikeStrategy.manage_position at h
  rcases hb : s.buy_price with _ | bp <;>
    rcases hmin : s.min_price_during_strike with _ | m <;>
    rcases hpb : s.price_before_strike with _ | pb <;>
    simp only [hb, hmin, hpb, MStrikeStrategy.calculate_sell_price] at h <;>
    (try split at h) <;> simp at h

/-- Helper: whenever `place_buy_order` is called with the depth computed from
`min` and `price_before` and emits `PlaceBuy`, the emitted price is in
`[min, price_before]` (relative mode, level in [0, 100]). -/
theorem place_buy_order_range (cfg : MStrikeConfig) (s : MStrikeState) (m' pb : ℚ)
    (hrel : cfg.mstrike_buy_relative = true)
    (h0 : 0 ≤ cfg.mstrike_buy_level) (h100 : cfg.mstrike_buy_level ≤ 100)
    (hpb : s.price_before_strike = some pb)
    (hm : 0 < m') (hmpb : m' ≤ pb) :
    ∀ s' p sz r,
      MStrikeStrategy.place_buy_order cfg s m' ((pb - m') / pb * 100)
          = some (s', .PlaceBuy p sz r) →
      s'.min_price_during_strike = s.min_price_during_strike ∧
      s'.price_before_strike = some pb ∧ m' ≤ p ∧ p ≤ pb := by
  intro s' p sz r h
  unfold MStrikeStrategy.place_buy_order at h
  rw [hpb, hrel] at h
  simp only [reduceIte] at h
  simp only [Option.some.injEq, Prod.mk.injEq, MStrikeSignal.PlaceBuy.injEq] at h
  obtain ⟨hs', hp, _hsz, _hr⟩ := h
  subst hs'
  subst hp
  refine ⟨rfl, rfl, ?_, ?_⟩
  · exact (buy_price_in_range cfg.mstrike_buy_level m' pb h0 h100 hm hmpb).1
  · exact (buy_price_in_range cfg.mstrike_buy_level m' pb h0 h100 hm hmpb).2

/-- Helper: a `PlaceBuy` produced by `detect_strike` from a well-formed
tracked state carries a price in `[min, price_before]` of the successor
state. -/
theorem detect_strike_place_buy_range (cfg : MStrikeConfig) (s1 : MStrikeState)
    (tick : TradeTick) (m pb : ℚ)
    (hrel : cfg.mstrike_buy_relative = true)
    (h0 : 0 ≤ cfg.mstrike_buy_level) (h100 : cfg.mstrike_buy_level ≤ 100)
    (hmin1 : s1.min_price_during_strike = some m)
    (hpb1 : s1.price_before_strike = some pb)
    (hm : 0 < m) (hmpb : m ≤ pb) (hp : 0 < tick.price) :
    ∀ s' p sz r,
      MStrikeStrategy.detect_strike cfg s1 tick = some (s', some (.PlaceBuy p sz r)) →
      ∃ m', s'.min_price_during_strike = some m' ∧
        s'.price_before_strike = some pb ∧ m' ≤ p ∧ p ≤ pb := by
  intro s' p sz r h
  unfold MStrikeStrategy.detect_strike at h
  rcases hema : s1.last_bid_ema with _ | ema <;> rw [hema] at h
  · simp at h
  · simp only [] at h
    rw [hmin1] at h
    simp only [] at h
    by_cases hlt : tick.price < m
    · rw [if_pos hlt] at h
      simp only [] at h
      rw [hpb1] at h
      simp only [] at h
      split at h
      · split at h
        · split at h
          · simp at h
          · split at h
            · simp at h
            · rw [Option.map_eq_some'] at h
              obtain ⟨⟨s2, sig2⟩, hpbo, hmap⟩ := h
              simp only [Prod.mk.injEq, Option.some.injEq] at hmap
              obtain ⟨h1, h2⟩ := hmap
              subst h1
              subst h2
              have := place_buy_order_range cfg _ tick.price pb hrel h0 h100 rfl
                hp (le_trans hlt.le hmpb) _ p sz r hpbo
              exact ⟨tick.price, by simpa using this.1, this.2.1, this.2.2⟩
        · simp at h
      · simp at h
    · rw [if_neg hlt] at h
      rw [hmin1, hpb1] at h
      simp only [] at h
      split at h
      · split at h
        · split at h
          · simp at h
          · split at h
            · simp at h
            · rw [Option.map_eq_some'] at h
              obtain ⟨⟨s2, sig2⟩, hpbo, hmap⟩ := h
              simp only [Prod.mk.injEq, Option.some.injEq] at hmap
              obtain ⟨h1, h2⟩ := hmap
              subst h1
              subst h2
              have := place_buy_order_range cfg _ m pb hrel h0 h100 hpb1
                hm hmpb _ p sz r hpbo
              exact ⟨m, by simpa [hmin1] using this.1, this.2.1, this.2.2⟩
        · simp at h
      · simp at h

/-- C1 (amended): in a well-formed tracked state (`0 < min ≤ price_before`),
with `mstrike_buy_relative` and `0 ≤ mstrike_buy_level ≤ 100` — the level is
a percentage of the restored depth, and levels above 100 overshoot
`price_before` — every `PlaceBuy` emitted by `on_tick` on a tick with
positive price carries a price inside
`[min_price_during_strike, price_before_strike]` of the post-tick state. -/
theorem C1_place_buy_price_in_range (cfg : MStrikeConfig) (s : MStrikeState)
    (tick : TradeTick) (d : Deltas) (m pb : ℚ)
    (hrel : cfg.mstrike_buy_relative = true)
    (h0 : 0 ≤ cfg.mstrike_buy_level) (h100 : cfg.mstrike_buy_level ≤ 100)
    (hmin : s.min_price_during_strike = some m)
    (hpb : s.price_before_strike = some pb)
    (hm : 0 < m) (hmpb : m ≤ pb) (hp : 0 < tick.price) :
    ∀ s' p sz r, MStrikeStrategy.on_tick cfg s tick d = some (s', .PlaceBuy p sz r) →
      ∃ m', s'.min_price_during_strike = some m' ∧
        s'.price_before_strike = some pb ∧ m' ≤ p ∧ p ≤ pb := by
  intro s' p sz r h
  unfold MStrikeStrategy.on_tick at h
  simp only [] at h
  set s1 := ((s.update_deltas d).update_bid_history tick.timestamp
    (tick.best_bid.getD tick.price)).update_last_bid_ema (tick.best_bid.getD tick.price)
    with hs1
  have P := mstrike_preamble_fields s d tick.timestamp (tick.best_bid.getD tick.price)
  rw [← hs1] at P
  obtain ⟨pm, ppb, _pbuy, _pwait, _pvol, _pdip, _plast⟩ := P
  by_cases hbuy : s1.buy_price.isSome = true
  · rw [if_pos hbuy] at h
    exact absurd rfl (manage_position_no_place_buy cfg s1 tick s' _ h p sz r)
  · rw [if_neg hbuy] at h
    by_cases hwait : s1.waiting_for_dip_reversal = true
    · rw [if_pos hwait] at h
      unfold MStrikeStrategy.check_dip_reversal at h
      simp only [] at h
      rcases hdw : s1.dip_wait_start with _ | ws <;> rw [hdw] at h <;>
        simp only [] at h
      · rcases hlast : s1.last_price_before_dip with _ | lp <;> rw [hlast] at h <;>
          simp only [] at h
        · simp at h
        · by_cases hgt : tick.price > lp
          · rw [if_pos hgt] at h
            try simp only [] at h
            rw [pm.trans hmin, ppb.trans hpb] at h
            simp only [] at h
            have := place_buy_order_range cfg _ m pb hrel h0 h100 rfl
              hm hmpb s' p sz r h
            exact ⟨m, by simpa using this.1, this.2.1, this.2.2⟩
          · rw [if_neg hgt] at h
            simp at h
      · split at h
        · simp at h
        · rcases hlast : s1.last_price_before_dip with _ | lp <;> rw [hlast] at h <;>
            simp only [] at h
          · simp at h
          · by_cases hgt : tick.price > lp
            · rw [if_pos hgt] at h
              try simp only [] at h
              rw [pm.trans hmin, ppb.trans hpb] at h
              simp only [] at h
              have := place_buy_order_range cfg _ m pb hrel h0 h100 rfl
                hm hmpb s' p sz r h
              exact ⟨m, by simpa using this.1, this.2.1, this.2.2⟩
            · rw [if_neg hgt] at h
              simp at h
    · rw [if_neg hwait] at h
      rw [Option.map_eq_some'] at h
      obtain ⟨⟨s2, osig⟩, hds, hmap⟩ := h
      simp only [Prod.mk.injEq] at hmap
      obtain ⟨h1, h2⟩ := hmap
      subst h1
      rcases osig with _ | sig
      · simp at h2
      · simp only [Option.getD_some] at h2
        subst h2
        exact detect_strike_place_buy_range cfg s1 tick m pb hrel h0 h100
          (pm.trans hmin) (ppb.trans hpb) hm hmpb hp _ p sz r hds

/-- C1 witness: level 50 on a tracked strike with min 50 and reference 100
emits `PlaceBuy` at 62.5, inside [50, 100]. -/
theorem C1_witness :
    ((0 : ℚ) ≤ 50 ∧ (50 : ℚ) ≤ 100 ∧ (0 : ℚ) < 50 ∧ (50 : ℚ) ≤ 100 ∧ (0 : ℚ) < 60) ∧
    (∃ m', (⟨some 100, [(1, 60)], some 50, some 0, 0, some 100, none, some (125/2), 100,
        0, 0, 0, 0, false, none, none⟩ : MStrikeState).min_price_during_strike = some m' ∧
      (⟨some 100, [(1, 60)], some 50, some 0, 0, some 100, none, some (125/2), 100,
        0, 0, 0, 0, false, none, none⟩ : MStrikeState).price_before_strike = some 100 ∧
      m' ≤ 125/2 ∧ (125/2 : ℚ) ≤ 100) := by
  refine ⟨by norm_num, ?_⟩
  exact C1_place_buy_price_in_range
    ⟨10, 0, 0, 50, true, 80, 0, 0, 0, 0, 0, .Both, false, 10000, 100, false, false, false⟩
    ⟨some 100, [], some 50, some 0, 0, some 100, none, none, 0, 0, 0, 0, 0, false, none, none⟩
    ⟨1, "AAA_USDT", 60, 0, some 60, some 60⟩ Deltas.default 50 100
    rfl (by norm_num) (by norm_num) rfl rfl (by norm_num) (by norm_num) (by norm_num)
    _ (125/2) 100 "MStrike detected"
    (by norm_num [MStrikeStrategy.on_tick, Deltas.default, MStrikeState.update_deltas,
      MStrikeState.update_bid_history, MStrikeState.update_last_bid_ema,
      MStrikeStrategy.detect_strike, MStrikeStrategy.calculate_effective_depth,
      MStrikeStrategy.place_buy_order])

/-- C3: the core panics on valid input.  Four ticks with constant price 100
(non-decreasing timestamps, positive price, no callbacks at all) make
`MStrikeStrategy::on_tick` panic: on the fourth tick `LastBidEMA` becomes
defined and equals 100; since the price is not below it, `detect_strike`
falls through its tracking branch to the unconditional
`min_price_during_strike.unwrap()` with the field still `None`.  The first
three ticks succeed. -/
theorem C3_mstrike_panic_on_constant_ticks :
    MStrikeStrategy.run_ticks MStrikeConfig.default MStrikeState.initial
      [(⟨0, "AAA_USDT", 100, 1, some 100, some 100⟩, Deltas.default),
        (⟨100, "AAA_USDT", 100, 1, some 100, some 100⟩, Deltas.default),
        (⟨200, "AAA_USDT", 100, 1, some 100, some 100⟩, Deltas.default),
        (⟨300, "AAA_USDT", 100, 1, some 100, some 100⟩, Deltas.default)] = none ∧
    (MStrikeStrategy.run_ticks MStrikeConfig.default MStrikeState.initial
      [(⟨0, "AAA_USDT", 100, 1, some 100, some 100⟩, Deltas.default),
        (⟨100, "AAA_USDT", 100, 1, some 100, some 100⟩, Deltas.default),
        (⟨200, "AAA_USDT", 100, 1, some 100, some 100⟩, Deltas.default)]).isSome = true := by
  constructor
  · norm_num [MStrikeStrategy.run_ticks, MStrikeStrategy.on_tick, MStrikeState.initial,
      MStrikeConfig.default, Deltas.default, MStrikeState.update_deltas,
      MStrikeState.update_bid_history, MStrikeState.update_last_bid_ema,
      MStrikeStrategy.detect_strike, MStrikeStrategy.calculate_effective_depth,
      MStrikeStrategy.manage_position, MStrikeStrategy.check_dip_reversal,
      MStrikeStrategy.place_buy_order]
  · norm_num [MStrikeStrategy.run_ticks, MStrikeStrategy.on_tick, MStrikeState.initial,
      MStrikeConfig.default, Deltas.default, MStrikeState.update_deltas,
      MStrikeState.update_bid_history, MStrikeState.update_last_bid_ema,
      MStrikeStrategy.detect_strike, MStrikeStrategy.calculate_effective_depth,
      MStrikeStrategy.manage_position, MStrikeStrategy.check_dip_reversal,
      MStrikeStrategy.place_buy_order]

/-- Helper: on a timestamp-sorted point list, every point surviving the
cleanup `dropWhile` is at least the cutoff. -/
theorem dropWhile_timestamp_ge {l : List PricePoint} {cutoff : ℤ}
    (h : l.Pairwise (fun a b => a.timestamp ≤ b.timestamp)) :
    ∀ p ∈ l.dropWhile (fun q => q.timestamp < cutoff), cutoff ≤ p.timestamp := by
  induction l with
  | nil =>
    intro p hp
    simp [List.dropWhile] at hp
  | cons a xs ih =>
    intro p hp
    rcases List.pairwise_cons.mp h with ⟨ha, hxs⟩
    rw [List.dropWhile_cons] at hp
    by_cases hcut : a.timestamp < cutoff
    · rw [if_pos (by simpa using hcut)] at hp
      exact ih hxs p hp
    · rw [if_neg (by simpa using hcut)] at hp
      rcases List.mem_cons.mp hp with rfl | hmem
      · exact le_of_not_lt hcut
      · exact le_trans (le_of_not_lt hcut) (ha p hmem)

/-- C4: when the three histories are timestamp-sorted and the tick is
delivered in order (its timestamp not before any retained point), every point
retained by `update(tick, now)` has timestamp at least
`now − max_history_duration`. -/
theorem C4_update_retention (c : DeltaCalculator) (tick : TradeTick) (now : ℤ)
    (h1 : c.price_history.Pairwise (fun a b => a.timestamp ≤ b.timestamp))
    (h2 : c.btc_price_history.Pairwise (fun a b => a.timestamp ≤ b.timestamp))
    (h3 : c.market_price_history.Pairwise (fun a b => a.timestamp ≤ b.timestamp))
    (h4 : ∀ p ∈ c.price_history, p.timestamp ≤ tick.timestamp)
    (h5 : ∀ p ∈ c.btc_price_history, p.timestamp ≤ tick.timestamp)
    (h6 : ∀ p ∈ c.market_price_history, p.timestamp ≤ tick.timestamp) :
    (∀ p ∈ (c.update tick now).price_history,
      now - c.max_history_duration ≤ p.timestamp) ∧
    (∀ p ∈ (c.update tick now).btc_price_history,
      now - c.max_history_duration ≤ p.timestamp) ∧
    (∀ p ∈ (c.update tick now).market_price_history,
      now - c.max_history_duration ≤ p.timestamp) := by
  have key : ∀ (l : List PricePoint),
      l.Pairwise (fun a b => a.timestamp ≤ b.timestamp) →
      (∀ p ∈ l, p.timestamp ≤ tick.timestamp) →
      ∀ p ∈ (l ++ [(⟨tick.timestamp, tick.price⟩ : PricePoint)]).dropWhile
          (fun q => q.timestamp < now - c.max_history_duration),
        now - c.max_history_duration ≤ p.timestamp := by
    intro l hl hb
    apply dropWhile_timestamp_ge
    refine List.pairwise_append.mpr ⟨hl, by simp, ?_⟩
    intro a ha b hbmem
    simp only [List.mem_singleton] at hbmem
    subst hbmem
    exact hb a ha
  unfold DeltaCalculator.update DeltaCalculator.cleanup
  by_cases hbtc : (containsSubstring "BTC" tick.symbol || tick.symbol == "BTC_USDT") = true
  · simp only [hbtc, if_true]
    exact ⟨key _ h1 h4, key _ h2 h5, key _ h3 h6⟩
  · simp only [hbtc, if_false]
    exact ⟨key _ h1 h4, dropWhile_timestamp_ge h2, key _ h3 h6⟩

/-- C4 witness: a concrete calculator with one stale point per non-empty
history; after the update only fresh points remain and they satisfy the
retention bound. -/
theorem C4_witness :
    ([(⟨0, 1⟩ : PricePoint)].Pairwise (fun a b => a.timestamp ≤ b.timestamp) ∧
      ([] : List PricePoint).Pairwise (fun a b => a.timestamp ≤ b.timestamp) ∧
      (∀ p ∈ [(⟨0, 1⟩ : PricePoint)], p.timestamp ≤ (250 : ℤ))) ∧
    (∀ p ∈ ((⟨[⟨0, 1⟩], [], [⟨0, 1⟩], 100⟩ : DeltaCalculator).update
        ⟨250, "AAA_USDT", 2, 1, none, none⟩ 250).price_history,
      (250 : ℤ) - 100 ≤ p.timestamp) := by
  refine ⟨⟨by simp, by simp, by simp⟩, ?_⟩
  exact (C4_update_retention ⟨[⟨0, 1⟩], [], [⟨0, 1⟩], 100⟩
    ⟨250, "AAA_USDT", 2, 1, none, none⟩ 250
    (by simp) (by simp) (by simp) (by simp) (by simp) (by simp)).1

/-- C5 counterexample: calling `stop(StopReason::None)` on a fresh manager —
a call the claim's arbitrary-sequence quantifier allows — yields a state
where `is_stopped()` is true but `stop_reason` is `None`, so the claimed
equivalence fails. -/
theorem C5_counterexample :
    ((AutoStopManager.new 3 1000 false none).stop .None 0).is_stopped = true ∧
    ((AutoStopManager.new 3 1000 false none).stop .None 0).stop_reason = .None := by
  constructor
  · rfl
  · rfl

/-- Helper: `stop` with a non-`None` reason preserves the stopped/reason
equivalence. -/
theorem AutoStopManager.stop_equiv (s : AutoStopManager) (r : StopReason) (now : ℤ)
    (hr : r ≠ .None) (ih : s.is_stopped = true ↔ s.stop_reason ≠ .None) :
    (s.stop r now).is_stopped = true ↔ (s.stop r now).stop_reason ≠ .None := by
  unfold AutoStopManager.stop
  by_cases h : s.stopped_at = none
  · simp [h, AutoStopManager.is_stopped, hr]
  · simpa [h] using ih

/-- C5 (amended): after every `record_error`, `current_error_level` equals the
length of `error_history` (this half holds unconditionally); and in every
state reachable with `stop` invoked only with a non-`None` reason — the
sentinel `StopReason::None` marks "not stopped" and `stop(None)` breaks the
equivalence — `is_stopped()` holds iff `stop_reason ≠ None`. -/
theorem C5_auto_stop_invariants :
    (∀ (s : AutoStopManager) (now : ℤ),
      (s.record_error now).current_error_level = (s.record_error now).error_history.length) ∧
    (∀ s, AutoStopReachable s → (s.is_stopped = true ↔ s.stop_reason ≠ .None)) := by
  constructor
  · intro s now
    rfl
  · intro s h
    induction h with
    | init mel mp pf ra =>
      simp [AutoStopManager.new, AutoStopManager.is_stopped]
    | record_error now _ ih =>
      simpa [AutoStopManager.record_error, AutoStopManager.is_stopped] using ih
    | check_ping ms now _ ih =>
      unfold AutoStopManager.check_ping
      split
      · exact AutoStopManager.stop_equiv _ .PingTooHigh now (by simp) ih
      · exact ih
    | check_errors now _ ih =>
      unfold AutoStopManager.check_errors
      split
      · exact AutoStopManager.stop_equiv _ .ErrorLevelExceeded now (by simp) ih
      · exact ih
    | stop r now hr _ ih =>
      exact AutoStopManager.stop_equiv _ r now hr ih
    | restart _ ih =>
      simp [AutoStopManager.restart, AutoStopManager.is_stopped]

/-- C5 witness: the invariant instantiated at a fresh manager and at a
concrete `record_error`. -/
theorem C5_witness :
    ((AutoStopManager.new 3 1000 false none).record_error 0).current_error_level
      = ((AutoStopManager.new 3 1000 false none).record_error 0).error_history.length ∧
    ((AutoStopManager.new 3 1000 false none).is_stopped = true ↔
      (AutoStopManager.new 3 1000 false none).stop_reason ≠ .None) :=
  ⟨C5_auto_stop_invariants.1 (AutoStopManager.new 3 1000 false none) 0,
    C5_auto_stop_invariants.2 _ (.init 3 1000 false none)⟩

/-- C2 counterexample: with `enabled = false` the code returns `None` even for
a `Critical` warning, while the claim promises `Some(0.5 · size)` for every
configuration. -/
theorem C2_counterexample :
    LiquidationControl.should_reduce_position ⟨false, 125, 1/100, 20⟩ .Critical 100 = none ∧
    (none : Option ℚ) ≠ some (100 * 0.5) := by
  constructor
  · rfl
  · simp

/-- C2 (amended): for every `LiquidationControl` configuration with
`enabled = true` and every size `s`, `should_reduce_position` maps Critical
to `0.5·s`, High to `0.7·s`, Medium to `0.85·s`, and None and Low to `None`. -/
theorem C2_should_reduce_position (c : LiquidationControl) (h : c.enabled = true) (s : ℚ) :
    c.should_reduce_position .Critical s = some (s * 0.5) ∧
    c.should_reduce_position .High s = some (s * 0.7) ∧
    c.should_reduce_position .Medium s = some (s * 0.85) ∧
    c.should_reduce_position .None s = none ∧
    c.should_reduce_position .Low s = none := by
  simp [LiquidationControl.should_reduce_position, h]

/-- C2 witness: the default configuration is enabled and reduces a Critical
position of 100 to 50. -/
theorem C2_witness :
    LiquidationControl.default.enabled = true ∧
    LiquidationControl.should_reduce_position LiquidationControl.default .Critical 100
      = some (100 * 0.5) :=
  ⟨rfl, (C2_should_reduce_position LiquidationControl.default rfl 100).1⟩

/-- C6: for a long position (size > 0) the liquidation price is strictly
below the entry price and equals `entry · (1 - (1 - mm_rate)/leverage)`; for
a short (size < 0) it is strictly above and equals
`entry · (1 + (1 - mm_rate)/leverage)` — under the position domain
`entry > 0`, `leverage > 0`, `mm_rate < 1`. -/
theorem C6_calculate_liquidation_price (c : LiquidationControl)
    (size entry balance lev : ℚ)
    (hentry : 0 < entry) (hlev : 0 < lev) (hmm : c.maintenance_margin_rate < 1) :
    (0 < size →
      c.calculate_liquidation_price size entry balance lev < entry ∧
      c.calculate_liquidation_price size entry balance lev
        = entry * (1 - (1 - c.maintenance_margin_rate) / lev)) ∧
    (size < 0 →
      entry < c.calculate_liquidation_price size entry balance lev ∧
      c.calculate_liquidation_price size entry balance lev
        = entry * (1 + (1 - c.maintenance_margin_rate) / lev)) := by
  have hmf : 0 < (1 - c.maintenance_margin_rate) / lev :=
    div_pos (by linarith) hlev
  unfold LiquidationControl.calculate_liquidation_price
  constructor
  · intro hsize
    rw [if_pos (by exact hsize)]
    constructor
    · nlinarith
    · rfl
  · intro hsize
    rw [if_neg (by exact not_lt.mpr hsize.le)]
    constructor
    · nlinarith
    · rfl

/-- C6 witness: entry 100, leverage 10, margin rate 1% — long liquidation
price below 100, short above 100. -/
theorem C6_witness :
    (0 : ℚ) < 100 ∧ (0 : ℚ) < 10 ∧
    LiquidationControl.default.maintenance_margin_rate < 1 ∧
    LiquidationControl.default.calculate_liquidation_price 1 100 1000 10 < 100 ∧
    100 < LiquidationControl.default.calculate_liquidation_price (-1) 100 1000 10 := by
  refine ⟨by norm_num, by norm_num, by norm_num [LiquidationControl.default], ?_, ?_⟩
  · exact ((C6_calculate_liquidation_price LiquidationControl.default 1 100 1000 10
      (by norm_num) (by norm_num) (by norm_num [LiquidationControl.default])).1
      (by norm_num)).1
  · exact ((C6_calculate_liquidation_price LiquidationControl.default (-1) 100 1000 10
      (by norm_num) (by norm_num) (by norm_num [LiquidationControl.default])).2
      (by norm_num)).1

/-- C8: `calculate_panic_price(b) = b · drop_to_percent · (1 − spread_percent)`
for every configuration and buy price; in particular with b = 100,
drop_to_percent = 1.02, spread_percent = 0.01 it equals 100.98 (exact in the
rational model). -/
theorem C8_calculate_panic_price :
    (∀ (m : PanicSellManager) (b : ℚ),
      m.calculate_panic_price b = b * m.drop_to_percent * (1 - m.spread_percent)) ∧
    PanicSellManager.calculate_panic_price ⟨true, 1.02, 0.01, none, none⟩ 100 = 100.98 := by
  constructor
  · intro m b
    rfl
  · norm_num [PanicSellManager.calculate_panic_price]

/-- C7: while an order is live without a fill (`active_order_id` set,
corridor and `initial_buy_price` set, `buy_price` unset) and the corridor is
an actual interval (`lower ≤ upper`), `on_tick` emits
`ReplaceBuy(lower · 0.99)` when the price is at or below the lower bound,
`ReplaceBuy(upper · 0.99)` when at or above the upper bound, and nothing when
strictly inside. -/
theorem C7_hook_corridor_tracking (cfg : HookConfig) (s : HookState)
    (tick : TradeTick) (d : Deltas) (u l i0 : ℚ)
    (hbuy : s.buy_price = none)
    (hact : s.active_order_id.isSome = true)
    (hu : s.corridor_upper = some u)
    (hl : s.corridor_lower = some l)
    (hi : s.initial_buy_price = some i0)
    (hlu : l ≤ u) :
    (tick.price ≤ l →
      (HookStrategy.on_tick cfg s tick d).map Prod.snd
        = some (.ReplaceBuy (l * 0.99))) ∧
    (u ≤ tick.price →
      (HookStrategy.on_tick cfg s tick d).map Prod.snd
        = some (.ReplaceBuy (u * 0.99))) ∧
    (l < tick.price → tick.price < u →
      (HookStrategy.on_tick cfg s tick d).map Prod.snd = some .NoAction) := by
  unfold HookStrategy.on_tick
  set s1 := HookStrategy.update_window cfg s tick.timestamp tick.price tick.volume with hs1
  have p1 : s1.buy_price = none := hbuy
  have p2 : s1.active_order_id = s.active_order_id := rfl
  have p3 : s1.corridor_upper = some u := hu
  have p4 : s1.corridor_lower = some l := hl
  have p5 : s1.initial_buy_price = some i0 := hi
  simp only [p1, p2, p3, p4, p5, hact, Option.isSome_none, Option.isSome_some,
    Bool.false_eq_true, if_false, Bool.and_self, if_true,
    HookStrategy.manage_corridor_order, Option.map_some, Option.map_none]
  refine ⟨?_, ?_, ?_⟩
  · intro hple
    rw [if_pos hple]
    rfl
  · intro hup
    by_cases hple : tick.price ≤ l
    · have hless : l = u := le_antisymm hlu (le_trans hup hple)
      rw [if_pos hple, hless]
      rfl
    · rw [if_neg hple, if_pos hup]
      rfl
  · intro h1 h2
    rw [if_neg (not_le.mpr h1), if_neg (not_le.mpr h2)]
    rfl

/-- Helper: `calculate_corridor` changes only the corridor fields, which it
always sets. -/
theorem calculate_corridor_fields (cfg : HookConfig) (s : HookState) :
    (HookStrategy.calculate_corridor cfg s).buy_price = s.buy_price ∧
    (HookStrategy.calculate_corridor cfg s).active_order_id = s.active_order_id ∧
    (HookStrategy.calculate_corridor cfg s).corridor_upper.isSome = true ∧
    (HookStrategy.calculate_corridor cfg s).corridor_lower.isSome = true ∧
    (HookStrategy.calculate_corridor cfg s).initial_buy_price.isSome = true :=
  ⟨rfl, rfl, rfl, rfl, rfl⟩

/-- Helper: `detect_hook` never changes `buy_price` or `active_order_id`. -/
theorem detect_hook_preserves_order_fields (cfg : HookConfig) (s : HookState)
    (tick : TradeTick) (d : Deltas) (s2 : HookState) (o : Option HookSignal)
    (h : HookStrategy.detect_hook cfg s tick d = some (s2, o)) :
    s2.buy_price = s.buy_price ∧ s2.active_order_id = s.active_order_id := by
  unfold HookStrategy.detect_hook at h
  split at h
  · simp only [Option.some.injEq, Prod.mk.injEq] at h
    rw [← h.1]
    exact ⟨rfl, rfl⟩
  · simp only [] at h
    split at h
    · simp only [Option.some.injEq, Prod.mk.injEq] at h
      rw [← h.1]
      exact ⟨rfl, rfl⟩
    · split at h
      · simp only [Option.some.injEq, Prod.mk.injEq] at h
        rw [← h.1]
        exact ⟨rfl, rfl⟩
      · split at h
        · simp only [Option.some.injEq, Prod.mk.injEq] at h
          rw [← h.1]
          exact ⟨(calculate_corridor_fields cfg _).1, (calculate_corridor_fields cfg _).2.1⟩
        · split at h
          · simp at h
          · simp only [Option.some.injEq, Prod.mk.injEq] at h
            rw [← h.1]
            exact ⟨(calculate_corridor_fields cfg _).1, (calculate_corridor_fields cfg _).2.1⟩

/-- Helper: a signal returned by `detect_hook` is `PlaceBuy` when present. -/
theorem detect_hook_signal_shape (cfg : HookConfig) (s : HookState)
    (tick : TradeTick) (d : Deltas) (s2 : HookState) (o : Option HookSignal)
    (h : HookStrategy.detect_hook cfg s tick d = some (s2, o)) :
    o = none ∨ ∃ p sz r, o = some (.PlaceBuy p sz r) := by
  unfold HookStrategy.detect_hook at h
  split at h
  · simp only [Option.some.injEq, Prod.mk.injEq] at h
    exact Or.inl h.2.symm
  · simp only [] at h
    split at h
    · simp only [Option.some.injEq, Prod.mk.injEq] at h
      exact Or.inl h.2.symm
    · split at h
      · simp only [Option.some.injEq, Prod.mk.injEq] at h
        exact Or.inl h.2.symm
      · split at h
        · simp only [Option.some.injEq, Prod.mk.injEq] at h
          exact Or.inl h.2.symm
        · split at h
          · simp at h
          · simp only [Option.some.injEq, Prod.mk.injEq] at h
            exact Or.inr ⟨_, _, _, h.2.symm⟩

/-- Helper: `HookStrategy::manage_position` never returns `ReplaceBuy`. -/
theorem hook_manage_position_signals (cfg : HookConfig) (s : HookState)
    (tick : TradeTick) (sig : HookSignal)
    (h : HookStrategy.manage_position cfg s tick = some sig) :
    ∀ np, sig ≠ .ReplaceBuy np := by
  unfold HookStrategy.manage_position at h
  rcases hb : s.buy_price with _ | bp <;> rw [hb] at h
  · simp at h
  · simp only [] at h
    split at h <;> split at h <;> simp only [Option.some.injEq] at h <;>
      subst h <;> simp

/-- Helper: `HookStrategy::on_tick` never changes `buy_price` or
`active_order_id`. -/
theorem hook_on_tick_preserves_order_fields (cfg : HookConfig) (s : HookState)
    (tick : TradeTick) (d : Deltas) (s' : HookState) (sig : HookSignal)
    (h : HookStrategy.on_tick cfg s tick d = some (s', sig)) :
    s'.buy_price = s.buy_price ∧ s'.active_order_id = s.active_order_id := by
  unfold HookStrategy.on_tick at h
  simp only [] at h
  split at h
  · rw [Option.map_eq_some'] at h
    obtain ⟨sig0, _, hpair⟩ := h
    obtain ⟨h1, _⟩ := Prod.mk.inj hpair
    rw [← h1]
    exact ⟨rfl, rfl⟩
  · split at h
    · rw [Option.map_eq_some'] at h
      obtain ⟨sig0, _, hpair⟩ := h
      obtain ⟨h1, _⟩ := Prod.mk.inj hpair
      rw [← h1]
      exact ⟨rfl, rfl⟩
    · split at h
      · rw [Option.map_eq_some'] at h
        obtain ⟨⟨s2, o⟩, hdet, hpair⟩ := h
        obtain ⟨h1, _⟩ := Prod.mk.inj hpair
        obtain ⟨e1, e2⟩ := detect_hook_preserves_order_fields cfg _ tick d s2 o hdet
        rw [← h1]
        exact ⟨e1, e2⟩
      · simp only [Option.some.injEq, Prod.mk.injEq] at h
        rw [← h.1]
        exact ⟨rfl, rfl⟩

/-- Helper: `on_sell_filled`, when it succeeds, clears both the position and
the order id. -/
theorem hook_on_sell_filled_fields (cfg : HookConfig) (s : HookState) (now : ℤ)
    (s' : HookState) (h : HookStrategy.on_sell_filled cfg s now = some s') :
    s'.buy_price = none ∧ s'.active_order_id = none := by
  unfold HookStrategy.on_sell_filled at h
  rcases hb : s.buy_price with _ | bp <;> rw [hb] at h
  · simp at h
  · simp only [Option.some.injEq] at h
    subst h
    exact ⟨rfl, rfl⟩

/-- C9: in every reachable Hook state, `buy_price` is set exactly when
`active_order_id` is set; consequently `on_tick` never returns `ReplaceBuy`
from a reachable state, because the corridor-management branch needs an
active order id with no recorded buy price. -/
theorem C9_hook_no_replace_buy (cfg : HookConfig) :
    (∀ s, HookReachable cfg s → s.buy_price.isSome = s.active_order_id.isSome) ∧
    (∀ s tick d s' sig, HookReachable cfg s →
      HookStrategy.on_tick cfg s tick d = some (s', sig) →
      ∀ np, sig ≠ .ReplaceBuy np) := by
  have hinv : ∀ s, HookReachable cfg s →
      s.buy_price.isSome = s.active_order_id.isSome := by
    intro s h
    induction h with
    | init => rfl
    | tick t d _ htick ih =>
      obtain ⟨e1, e2⟩ := hook_on_tick_preserves_order_fields cfg _ t d _ _ htick
      rw [e1, e2]
      exact ih
    | buy_filled price size _ _ => rfl
    | sell_filled now _ hsell _ =>
      obtain ⟨e1, e2⟩ := hook_on_sell_filled_fields cfg _ now _ hsell
      rw [e1, e2]
      rfl
  refine ⟨hinv, ?_⟩
  intro s tick d s' sig hr htick np
  have hs := hinv s hr
  unfold HookStrategy.on_tick at htick
  by_cases hb : (HookStrategy.update_window cfg s tick.timestamp tick.price
      tick.volume).buy_price.isSome = true
  · rw [if_pos hb] at htick
    rw [Option.map_eq_some'] at htick
    obtain ⟨sig0, hmp, hpair⟩ := htick
    obtain ⟨_, h2⟩ := Prod.mk.inj hpair
    rw [← h2]
    exact hook_manage_position_signals cfg _ tick sig0 hmp np
  · rw [if_neg hb] at htick
    have hacts : (HookStrategy.update_window cfg s tick.timestamp tick.price
        tick.volume).active_order_id.isSome = false := by
      have e1 : (HookStrategy.update_window cfg s tick.timestamp tick.price
          tick.volume).buy_price = s.buy_price := rfl
      have e2 : (HookStrategy.update_window cfg s tick.timestamp tick.price
          tick.volume).active_order_id = s.active_order_id := rfl
      rw [e2, ← hs, ← e1]
      simpa using hb
    rw [show ((HookStrategy.update_window cfg s tick.timestamp tick.price
        tick.volume).active_order_id.isSome &&
        (HookStrategy.update_window cfg s tick.timestamp tick.price
          tick.volume).corridor_upper.isSome) = false by simp [hacts]] at htick
    rw [if_neg (by simp)] at htick
    split at htick
    · rw [Option.map_eq_some'] at htick
      obtain ⟨⟨s2, o⟩, hdet, hpair⟩ := htick
      obtain ⟨_, h2⟩ := Prod.mk.inj hpair
      rw [← h2]
      rcases detect_hook_signal_shape cfg _ tick d s2 o hdet with rfl | ⟨p, sz, r, rfl⟩
      · simp
      · simp
    · simp only [Option.some.injEq, Prod.mk.injEq] at htick
      rw [← htick.2]
      simp

/-- C9 witness: the invariant instantiated at the fresh strategy state. -/
theorem C9_witness :
    HookState.initial.buy_price.isSome = HookState.initial.active_order_id.isSome :=
  (C9_hook_no_replace_buy HookConfig.default).1 HookState.initial .init

/-- C7 witness: corridor [90, 110], live order, price 100 strictly inside —
no `ReplaceBuy`. -/
theorem C7_witness :
    ((⟨[], [], true, some 0, 10, 90, 100, some 95, none, some 110, some 90, some 95,
        some 0, none, 0, []⟩ : HookState).buy_price = none ∧
      (⟨[], [], true, some 0, 10, 90, 100, some 95, none, some 110, some 90, some 95,
        some 0, none, 0, []⟩ : HookState).active_order_id.isSome = true ∧
      (90 : ℚ) ≤ 110) ∧
    ((90 : ℚ) < 100 → (100 : ℚ) < 110 →
      (HookStrategy.on_tick HookConfig.default
        ⟨[], [], true, some 0, 10, 90, 100, some 95, none, some 110, some 90, some 95,
          some 0, none, 0, []⟩
        ⟨100, "AAA_USDT", 100, 1, none, none⟩ Deltas.default).map Prod.snd
        = some .NoAction) :=
  ⟨⟨rfl, rfl, by norm_num⟩,
    (C7_hook_corridor_tracking HookConfig.default
      ⟨[], [], true, some 0, 10, 90, 100, some 95, none, some 110, some 90, some 95,
        some 0, none, 0, []⟩
      ⟨100, "AAA_USDT", 100, 1, none, none⟩ Deltas.default 110 90 95
      rfl rfl rfl rfl rfl (by norm_num)).2.2⟩

/-- C10: when Hook's detection fires (window of ≥ 2 points, depth at or above
the threshold and not filtered by the max) but the reduced order size is
below `min_reduced_size`, `on_tick` returns `NoAction` while the detection
state is already committed — `strike_detected`, detection time, depth,
min/max, rollback and corridor are all recorded — and every subsequent tick
earlier than `hook_time_frame` after the aborted detection also yields
`NoAction`: the abort is not atomic with respect to strategy state. -/
theorem C10_hook_aborted_detection (cfg : HookConfig) (s : HookState)
    (tick : TradeTick) (d : Deltas) (s1 : HookState)
    (hs1 : s1 = HookStrategy.update_window cfg s tick.timestamp tick.price tick.volume)
    (hbuy : s.buy_price = none)
    (hact : s.active_order_id = none)
    (hgate : s.strike_detected = false ∨
      HookStrategy.can_detect_again cfg s tick.timestamp = true)
    (hlen : ¬s1.price_window.length < 2)
    (hdepth : ¬HookStrategy.window_depth s1 < cfg.hook_detect_depth)
    (hdmax : ¬(cfg.hook_detect_depth_max > 0 ∧
      HookStrategy.window_depth s1 > cfg.hook_detect_depth_max))
    (hsize : HookStrategy.calculate_order_size cfg s1 < cfg.min_reduced_size) :
    ∃ s', HookStrategy.on_tick cfg s tick d = some (s', .NoAction) ∧
      s'.strike_detected = true ∧
      s'.strike_detection_time = some tick.timestamp ∧
      s'.strike_depth = HookStrategy.window_depth s1 ∧
      s'.strike_min_price = HookStrategy.window_min_price s1 ∧
      s'.strike_max_price = HookStrategy.window_max_price s1 ∧
      s'.strike_rollback_price.isSome = true ∧
      s'.corridor_upper.isSome = true ∧
      s'.corridor_lower.isSome = true ∧
      s'.initial_buy_price.isSome = true ∧
      (∀ tick2 d2, tick2.timestamp - tick.timestamp < cfg.hook_time_frame →
        (HookStrategy.on_tick cfg s' tick2 d2).map Prod.snd = some .NoAction) := by
  have hdet : HookStrategy.detect_hook cfg s1 tick d =
      some (HookStrategy.calculate_corridor cfg
        { s1 with
          strike_detected := true
          strike_detection_time := some tick.timestamp
          strike_depth := HookStrategy.window_depth s1
          strike_min_price := HookStrategy.window_min_price s1
          strike_max_price := HookStrategy.window_max_price s1
          deltas_at_detection := some d
          strike_rollback_price := some (HookStrategy.window_max_price s1 -
            HookStrategy.window_depth s1 * cfg.hook_price_roll_back / 100 *
            (HookStrategy.window_max_price s1 / 100)) }, none) := by
    unfold HookStrategy.detect_hook
    rw [if_neg hlen]
    simp only []
    rw [if_neg hdepth, if_neg hdmax]
    split
    · rfl
    · rename_i hc
      exact absurd hsize hc
  refine ⟨HookStrategy.calculate_corridor cfg
      { s1 with
        strike_detected := true
        strike_detection_time := some tick.timestamp
        strike_depth := HookStrategy.window_depth s1
        strike_min_price := HookStrategy.window_min_price s1
        strike_max_price := HookStrategy.window_max_price s1
        deltas_at_detection := some d
        strike_rollback_price := some (HookStrategy.window_max_price s1 -
          HookStrategy.window_depth s1 * cfg.hook_price_roll_back / 100 *
          (HookStrategy.window_max_price s1 / 100)) },
    ?_, rfl, rfl, rfl, rfl, rfl, rfl,
    (calculate_corridor_fields cfg _).2.2.1, (calculate_corridor_fields cfg _).2.2.2.1,
    (calculate_corridor_fields cfg _).2.2.2.2, ?_⟩
  · unfold HookStrategy.on_tick
    simp only []
    rw [← hs1]
    rw [if_neg (by rw [show s1.buy_price = s.buy_price from hs1 ▸ rfl, hbuy]; simp)]
    rw [if_neg (by rw [show s1.active_order_id = s.active_order_id from hs1 ▸ rfl, hact]; simp)]
    rw [if_pos (by
      rcases hgate with hg | hg
      · rw [show s1.strike_detected = s.strike_detected from hs1 ▸ rfl, hg]
        simp
      · rw [show HookStrategy.can_detect_again cfg s1 tick.timestamp
            = HookStrategy.can_detect_again cfg s tick.timestamp from hs1 ▸ rfl, hg]
        simp)]
    rw [hdet]
    rfl
  · intro tick2 d2 hlt
    unfold HookStrategy.on_tick
    simp only []
    rw [if_neg (by
      rw [show (HookStrategy.update_window cfg _ tick2.timestamp tick2.price
          tick2.volume).buy_price = s.buy_price from hs1 ▸ rfl, hbuy]
      simp)]
    rw [if_neg (by
      rw [show (HookStrategy.update_window cfg _ tick2.timestamp tick2.price
          tick2.volume).active_order_id = s.active_order_id from hs1 ▸ rfl, hact]
      simp)]
    rw [if_neg (by
      have hdt : (HookStrategy.update_window cfg
          (HookStrategy.calculate_corridor cfg
            { s1 with
              strike_detected := true
              strike_detection_time := some tick.timestamp
              strike_depth := HookStrategy.window_depth s1
              strike_min_price := HookStrategy.window_min_price s1
              strike_max_price := HookStrategy.window_max_price s1
              deltas_at_detection := some d
              strike_rollback_price := some (HookStrategy.window_max_price s1 -
                HookStrategy.window_depth s1 * cfg.hook_price_roll_back / 100 *
                (HookStrategy.window_max_price s1 / 100)) })
          tick2.timestamp tick2.price tick2.volume).strike_detection_time
          = some tick.timestamp := rfl
      simp only [HookStrategy.can_detect_again, hdt, Bool.or_eq_true, Bool.not_eq_true]
      push_neg
      refine ⟨?_, ?_⟩
      · exact (by simp : (false : Bool) ≠ true)
      · simpa using not_le.mpr hlt)]
    rfl

/-- C10 witness: a 10% drop inside the window with `min_reduced_size` 1000
(order reduced to 0.1) — detection fires, the order is aborted, yet the
committed state blocks redetection. -/
theorem C10_witness :
    ((⟨[(0, 100), (500, 90)], [(0, 1), (500, 1)], false, none, 0, 0, 0, none, none,
        none, none, none, none, none, 0, []⟩ : HookState)
      = HookStrategy.update_window
        ⟨2000, 5, 0, 25, 10, 33, 0, 100, false, 0, 0, .Long, false, 0, 100, 1000, 75,
          false, 0, 0, 0, false, 0, 100, -3, false, false⟩
        ⟨[(0, 100)], [(0, 1)], false, none, 0, 0, 0, none, none, none, none, none,
          none, none, 0, []⟩ 500 90 1 ∧
      ¬HookStrategy.window_depth
        (⟨[(0, 100), (500, 90)], [(0, 1), (500, 1)], false, none, 0, 0, 0, none, none,
          none, none, none, none, none, 0, []⟩ : HookState) < 5 ∧
      HookStrategy.calculate_order_size
        ⟨2000, 5, 0, 25, 10, 33, 0, 100, false, 0, 0, .Long, false, 0, 100, 1000, 75,
          false, 0, 0, 0, false, 0, 100, -3, false, false⟩
        (⟨[(0, 100), (500, 90)], [(0, 1), (500, 1)], false, none, 0, 0, 0, none, none,
          none, none, none, none, none, 0, []⟩ : HookState) < 1000) ∧
    (∃ s', HookStrategy.on_tick
        ⟨2000, 5, 0, 25, 10, 33, 0, 100, false, 0, 0, .Long, false, 0, 100, 1000, 75,
          false, 0, 0, 0, false, 0, 100, -3, false, false⟩
        ⟨[(0, 100)], [(0, 1)], false, none, 0, 0, 0, none, none, none, none, none,
          none, none, 0, []⟩
        ⟨500, "AAA_USDT", 90, 1, none, none⟩ Deltas.default = some (s', .NoAction) ∧
      s'.strike_detected = true ∧
      s'.strike_detection_time = some 500 ∧
      s'.strike_depth = HookStrategy.window_depth
        (⟨[(0, 100), (500, 90)], [(0, 1), (500, 1)], false, none, 0, 0, 0, none, none,
          none, none, none, none, none, 0, []⟩ : HookState) ∧
      s'.strike_min_price = HookStrategy.window_min_price
        (⟨[(0, 100), (500, 90)], [(0, 1), (500, 1)], false, none, 0, 0, 0, none, none,
          none, none, none, none, none, 0, []⟩ : HookState) ∧
      s'.strike_max_price = HookStrategy.window_max_price
        (⟨[(0, 100), (500, 90)], [(0, 1), (500, 1)], false, none, 0, 0, 0, none, none,
          none, none, none, none, none, 0, []⟩ : HookState) ∧
      s'.strike_rollback_price.isSome = true ∧
      s'.corridor_upper.isSome = true ∧
      s'.corridor_lower.isSome = true ∧
      s'.initial_buy_price.isSome = true ∧
      (∀ tick2 d2, tick2.timestamp - (500 : ℤ) < 2000 →
        (HookStrategy.on_tick
          ⟨2000, 5, 0, 25, 10, 33, 0, 100, false, 0, 0, .Long, false, 0, 100, 1000, 75,
            false, 0, 0, 0, false, 0, 100, -3, false, false⟩ s' tick2 d2).map Prod.snd
          = some .NoAction)) := by
  refine ⟨⟨?_, ?_, ?_⟩, ?_⟩
  · norm_num [HookStrategy.update_window, List.dropWhile]
  · norm_num [HookStrategy.window_depth, HookStrategy.window_max_price,
      HookStrategy.window_min_price]
  · norm_num [HookStrategy.calculate_order_size]
  · exact C10_hook_aborted_detection _ _ ⟨500, "AAA_USDT", 90, 1, none, none⟩
      Deltas.default _
      (by norm_num [HookStrategy.update_window, List.dropWhile])
      rfl rfl (Or.inl rfl)
      (by norm_num)
      (by norm_num [HookStrategy.window_depth, HookStrategy.window_max_price,
        HookStrategy.window_min_price])
      (by norm_num)
      (by norm_num [HookStrategy.calculate_order_size])

end CryptoBot
